import Mathlib

/-! # NPS plugin: survey scheduling and admin notices

A shallow embedding of `server/survey.go`, of the activation in `server/activate.go`, and of
`getScore` as `server/api_test.go` exercises it, followed by theorems about them.

Conventions of the embedding:

* `time.Time` is an instant counted in nanoseconds since the Unix epoch (an `Int`);
  `time.Duration` is a number of nanoseconds that `Time.Sub` saturates to the `int64`
  range, as Go does.
* `semver.Version` keeps its three numeric fields (`uint64` in Go, never used
  in arithmetic here, hence `Nat`).
* The plugin API is a collaborator: every call is recorded in the trace of the
  `World` (newest event first) and its outcome is read from an `Env`, indexed by the
  number of calls made so far, so that every pattern of failures can be expressed.
* A nil dereference is a `Fault.panic`; the unbounded loop of `getAdminUsers` takes fuel.
-/

namespace NPS

/-! ## Time -/

/-- The Go constant `time.Hour`, in nanoseconds. -/
def Hour : Int := 3600 * 1000000000

/-- Largest `time.Duration` (`1<<63 - 1`). -/
def maxDuration : Int := 9223372036854775807

/-- Smallest `time.Duration` (`-1 << 63`). -/
def minDuration : Int := -9223372036854775808

/-- The Go method `Time.Sub`: the duration `t - u`, saturated to the range of `Duration`. -/
def Time.Sub (t u : Int) : Int :=
  if t - u > maxDuration then maxDuration
  else if t - u < minDuration then minDuration
  else t - u

/-- The Go method `Time.Add`. -/
def Time.Add (t : Int) (d : Int) : Int := t + d

/-! ## Constants of `survey.go` -/

def MIN_DAYS_BETWEEN_SURVEY_EMAILS : Int := 7

def DAYS_UNTIL_SURVEY : Int := 21

def ADMIN_USERS_PER_PAGE : Int := 100

/-- The constant `model.SYSTEM_ADMIN_ROLE_ID` of the server model. -/
def SYSTEM_ADMIN_ROLE_ID : String := "system_admin"

/-! ## Data model -/

/-- The numeric fields of `semver.Version`. -/
structure Version where
  Major : Nat
  Minor : Nat
  Patch : Nat
  deriving DecidableEq, Repr

/-- The record `serverUpgrade` that `checkForNextSurvey` stores. -/
structure serverUpgrade where
  Version : Version
  Timestamp : Int
  deriving DecidableEq, Repr

structure adminNotice where
  Sent : Bool
  NextSurvey : Int
  deriving DecidableEq, Repr

/-- The fields of `model.User` the code reads. -/
structure User where
  Id : String
  Email : String
  Roles : String
  DeleteAt : Int
  deriving DecidableEq, Repr

/-- The type `model.AppError`, reduced to its message. -/
structure AppError where
  Message : String
  deriving DecidableEq, Repr

/-! ## Upgrade detection and the notice rate limit -/

/-- `shouldScheduleSurvey` of `survey.go`; a nil `lastUpgrade` is `none`. -/
def shouldScheduleSurvey (currentVersion : Version) (lastUpgrade : Option serverUpgrade) : Bool :=
  match lastUpgrade with
  | none => true
  | some last =>
    decide (currentVersion.Major > last.Version.Major) ||
      decide (currentVersion.Minor > last.Version.Minor)

/-- `shouldSendAdminNotices` of `survey.go`. -/
def shouldSendAdminNotices (now : Int) (lastUpgrade : Option serverUpgrade) : Bool :=
  match lastUpgrade with
  | none => true
  | some last =>
    decide (Time.Sub now last.Timestamp ≥ MIN_DAYS_BETWEEN_SURVEY_EMAILS * 24 * Hour)

/-! ## The world the plugin runs in -/

/-- A byte slice (`[]byte`). -/
abbrev Bytes := List Nat

deriving instance DecidableEq for Except

/-- How a call of the plugin can stop without returning. -/
inductive Fault where
  | panic (msg : String)
  | outOfFuel
  deriving DecidableEq, Repr

inductive LogLevel where
  | debug
  | info
  | warn
  | error
  deriving DecidableEq, Repr

/-- One call of a collaborator, with its arguments and, where it can fail, whether it
succeeded. Log events keep the message (for formatted messages, the format string). -/
inductive Event where
  | log (level : LogLevel) (msg : String)
  | getConfig
  | getUsers (page : Nat) (perPage : Int) (role : String)
  | sendMail (recipient subject body : String) (ok : Bool)
  | kvSet (key : String) (value : Bytes) (ok : Bool)
  | kvGet (key : String)
  | createBotDMPost (userId message postType : String) (ok : Bool)
  | storeServerUpgrade (upgrade : serverUpgrade) (ok : Bool)
  deriving DecidableEq, Repr

/-- The pointer fields of `model.Config` that `sendAdminNoticeEmails` reads; a nil
pointer is `none`. -/
structure Config where
  SiteName : Option String
  SiteURL : Option String
  FeedbackOrganization : Option String
  deriving DecidableEq, Repr

/-- The state the plugin acts on: the key-value store, the stored server upgrade record,
and the calls made so far (newest first). -/
structure World where
  kv : String → Option Bytes
  lastServerUpgrade : Option serverUpgrade
  trace : List Event

/-- The number of collaborator calls made so far. -/
def World.clock (w : World) : Nat := w.trace.length

def World.emit (w : World) (e : Event) : World :=
  { w with trace := e :: w.trace }

/-- What the code does not fix: the constants and templates declared outside
`survey.go`, the JSON codec of `adminNotice`, and the outcome of every collaborator
call, given the number of calls made before it. -/
structure Env where
  /-- The constant `ADMIN_DM_NOTICE_KEY`. -/
  ADMIN_DM_NOTICE_KEY : String
  /-- The value of `fmt.Sprintf(adminEmailSubject, siteName, days)`. -/
  adminEmailSubject : String → Int → String
  /-- The result of `adminEmailBodyTemplate.Execute` on site URL, days and organization. -/
  adminEmailBodyTemplate : String → Int → String → Except String String
  /-- The value of `fmt.Sprintf(adminDMBody, nextSurvey.Format(...))`. -/
  adminDMBody : Int → String
  /-- The result of `json.Marshal` on an `adminNotice`: the bytes and the error (nil is `none`). -/
  marshalNotice : adminNotice → Bytes × Option String
  /-- The result of `json.Unmarshal` into an `adminNotice`. -/
  unmarshalNotice : Bytes → Except String adminNotice
  GetConfigResult : Nat → Config
  GetUsersResult : Nat → Nat → Int → Except AppError (List User)
  SendMailError : Nat → String → Option AppError
  KVSetError : Nat → String → Option AppError
  KVGetError : Nat → String → Option AppError
  CreateBotDMPostError : Nat → String → Option AppError
  storeServerUpgradeError : Nat → Option AppError

/-! ### Collaborator calls -/

def LogDebug (msg : String) (w : World) : World := w.emit (.log .debug msg)

def LogInfo (msg : String) (w : World) : World := w.emit (.log .info msg)

def LogError (msg : String) (w : World) : World := w.emit (.log .error msg)

def GetConfig (env : Env) (w : World) : Config × World :=
  (env.GetConfigResult w.clock, w.emit .getConfig)

def GetUsers (env : Env) (page : Nat) (perPage : Int) (role : String) (w : World) :
    Except AppError (List User) × World :=
  (env.GetUsersResult w.clock page perPage, w.emit (.getUsers page perPage role))

def SendMail (env : Env) (recipient subject body : String) (w : World) : Option AppError × World :=
  match env.SendMailError w.clock recipient with
  | some e => (some e, w.emit (.sendMail recipient subject body false))
  | none => (none, w.emit (.sendMail recipient subject body true))

/-- The call `KVSet`: a successful call binds the key, a failed call leaves the store as it was. -/
def KVSet (env : Env) (key : String) (value : Bytes) (w : World) : Option AppError × World :=
  match env.KVSetError w.clock key with
  | some e => (some e, w.emit (.kvSet key value false))
  | none =>
    (none,
      { kv := fun k => if k = key then some value else w.kv k
        lastServerUpgrade := w.lastServerUpgrade
        trace := .kvSet key value true :: w.trace })

/-- Modelled from the spec: `getLastServerUpgrade` is not in the sources at hand; it loads
the singleton `ServerUpgradeRecord`, absent on a fresh install. -/
def getLastServerUpgrade (w : World) : Option serverUpgrade × World :=
  (w.lastServerUpgrade, w)

/-- Modelled from the spec: `storeServerUpgrade` is not in the sources at hand; it persists
the record under its fixed key, overwriting the previous one, and may fail. -/
def storeServerUpgrade (env : Env) (upgrade : serverUpgrade) (w : World) :
    Option AppError × World :=
  match env.storeServerUpgradeError w.clock with
  | some e => (some e, w.emit (.storeServerUpgrade upgrade false))
  | none =>
    (none,
      { kv := w.kv
        lastServerUpgrade := some upgrade
        trace := .storeServerUpgrade upgrade true :: w.trace })

/-- The method call `err.Error()` on a value of interface type `error`: on the nil
interface it is a nil pointer dereference. -/
def Error (err : Option String) : Except Fault String :=
  match err with
  | none => .error (.panic "invalid memory address or nil pointer dereference")
  | some msg => .ok msg

/-- Dereference of a `*string`. -/
def deref (p : Option String) : Except Fault String :=
  match p with
  | none => .error (.panic "invalid memory address or nil pointer dereference")
  | some s => .ok s

/-! ## Admin notice dispatch -/

/-- `getAdminUsers` of `survey.go`: the `for` loop, entered at `page` with `admins`
collected so far. The inner loop that skips deactivated users is the `filter`. -/
def getAdminUsersLoop (env : Env) (perPage : Int) :
    Nat → Nat → List User → World → Except Fault (Except AppError (List User)) × World
  | 0, _, _, w => (.error .outOfFuel, w)
  | fuel + 1, page, admins, w =>
    match GetUsers env page perPage "system_admin" w with
    | (.error err, w1) => (.ok (.error err), w1)
    | (.ok adminsPage, w1) =>
      let admins := admins ++ adminsPage.filter (fun admin => !decide (admin.DeleteAt > 0))
      if (adminsPage.length : Int) < perPage then (.ok (.ok admins), w1)
      else getAdminUsersLoop env perPage fuel (page + 1) admins w1

def getAdminUsers (env : Env) (fuel : Nat) (perPage : Int) (w : World) :
    Except Fault (Except AppError (List User)) × World :=
  getAdminUsersLoop env perPage fuel 0 [] w

/-- The `for` loop of `sendAdminNoticeEmails`. -/
def sendAdminNoticeEmailsLoop (env : Env) (subject body : String) : List User → World → World
  | [], w => w
  | admin :: rest, w =>
    let w1 := LogDebug "Sending NPS survey notification email" w
    match SendMail env admin.Email subject body w1 with
    | (some _, w2) =>
      sendAdminNoticeEmailsLoop env subject body rest
        (LogError "Failed to send NPS survey notification email" w2)
    | (none, w2) => sendAdminNoticeEmailsLoop env subject body rest w2

def sendAdminNoticeEmails (env : Env) (admins : List User) (w : World) :
    Except Fault Unit × World :=
  let (config, w1) := GetConfig env w
  match deref config.SiteName with
  | .error f => (.error f, w1)
  | .ok siteName =>
    let subject := env.adminEmailSubject siteName DAYS_UNTIL_SURVEY
    match deref config.SiteURL with
    | .error f => (.error f, w1)
    | .ok siteURL =>
      let organization :=
        match config.FeedbackOrganization with
        | some org => if org ≠ "" then "Sent by " ++ org else ""
        | none => ""
      match env.adminEmailBodyTemplate siteURL DAYS_UNTIL_SURVEY organization with
      | .error _ => (.ok (), LogError "Failed to prepare NPS survey notification email" w1)
      | .ok body => (.ok (), sendAdminNoticeEmailsLoop env subject body admins w1)

/-- `sendAdminNoticeDMs` of `survey.go`. In the branch of a failed `KVSet` the argument of
`LogError` is `err.Error()`, where `err` is the result of `json.Marshal`, nil at that point. -/
def sendAdminNoticeDMs (env : Env) : List User → Int → World → Except Fault Unit × World
  | [], _, w => (.ok (), w)
  | admin :: rest, nextSurvey, w =>
    let (noticeBytes, err) := env.marshalNotice { Sent := false, NextSurvey := nextSurvey }
    if err ≠ none then
      match Error err with
      | .error f => (.error f, w)
      | .ok _ =>
        sendAdminNoticeDMs env rest nextSurvey (LogError "Failed to encode scheduled admin notice" w)
    else
      match KVSet env (env.ADMIN_DM_NOTICE_KEY ++ admin.Id) noticeBytes w with
      | (some _, w1) =>
        match Error err with
        | .error f => (.error f, w1)
        | .ok _ =>
          sendAdminNoticeDMs env rest nextSurvey
            (LogError "Failed to store scheduled admin notice" w1)
      | (none, w1) => sendAdminNoticeDMs env rest nextSurvey w1

def sendAdminNotices (env : Env) (fuel : Nat) (nextSurvey : Int) (w : World) :
    Except Fault Unit × World :=
  match getAdminUsers env fuel ADMIN_USERS_PER_PAGE w with
  | (.error f, w1) => (.error f, w1)
  | (.ok (.error _), w1) =>
    (.ok (), LogError "Failed to get system admins to send admin notices" w1)
  | (.ok (.ok admins), w1) =>
    match sendAdminNoticeEmails env admins w1 with
    | (.error f, w2) => (.error f, w2)
    | (.ok _, w2) => sendAdminNoticeDMs env admins nextSurvey w2

/-! ## The scheduler -/

/-- `checkForNextSurvey` of `survey.go`; `now` is the value of its `time.Now()` call. -/
def checkForNextSurvey (env : Env) (fuel : Nat) (currentVersion : Version) (now : Int)
    (w : World) : Except Fault Bool × World :=
  let (lastUpgrade, w0) := getLastServerUpgrade w
  if !shouldScheduleSurvey currentVersion lastUpgrade then
    (.ok false, LogDebug "No server version change detected. Not scheduling a new survey." w0)
  else
    let nextSurvey := Time.Add now (DAYS_UNTIL_SURVEY * 24 * Hour)
    let w1 :=
      match lastUpgrade with
      | none => LogInfo "NPS plugin installed. Scheduling NPS survey for %s" w0
      | some _ => LogInfo "Version change detected from %s to %s. Scheduling NPS survey for %s" w0
    let (sent, w2) :=
      if shouldSendAdminNotices now lastUpgrade then sendAdminNotices env fuel nextSurvey w1
      else (.ok (), w1)
    match sent with
    | .error f => (.error f, w2)
    | .ok _ =>
      match storeServerUpgrade env { Version := currentVersion, Timestamp := now } w2 with
      | (some _, w3) =>
        (.ok true,
          LogError "Failed to store time of server upgrade. The next NPS survey may not occur." w3)
      | (none, w3) => (.ok true, w3)

/-! ## Delivery of the admin notice -/

/-- The predicate `unicode.IsSpace`. -/
def isSpace (c : Char) : Bool :=
  let n := c.toNat
  (decide (9 ≤ n) && decide (n ≤ 13)) || n == 32 || n == 0x85 || n == 0xA0 || n == 0x1680 ||
    (decide (0x2000 ≤ n) && decide (n ≤ 0x200a)) || n == 0x2028 || n == 0x2029 ||
    n == 0x202f || n == 0x205f || n == 0x3000

/-- The scan of `strings.Fields`: `cur` is the field being read, last character first. -/
def fieldsAux : List Char → List Char → List (List Char)
  | [], cur => if cur = [] then [] else [cur.reverse]
  | c :: cs, cur =>
    if isSpace c then
      if cur = [] then fieldsAux cs [] else cur.reverse :: fieldsAux cs []
    else fieldsAux cs (c :: cur)

/-- The function `strings.Fields`: the maximal runs of characters that are not white space. -/
def Fields (s : String) : List String :=
  (fieldsAux s.data []).map String.mk

/-- `isSystemAdmin` of `survey.go`. -/
def isSystemAdmin (user : User) : Bool :=
  (Fields user.Roles).any (fun role => role == SYSTEM_ADMIN_ROLE_ID)

/-- Whether an event is a DM post created for the user. -/
def isPostFor (userId : String) : Event → Bool
  | .createBotDMPost uid _ _ ok => uid == userId && ok
  | _ => false

/-- The number of DM posts created for the user so far. -/
def dmPosts (userId : String) (w : World) : Nat :=
  (w.trace.filter (isPostFor userId)).length

/-! ## Sequences of scheduler runs -/

def isGetUsers : Event → Bool
  | .getUsers _ _ _ => true
  | _ => false

/-- The number of admin listings requested so far; the dispatch `sendAdminNotices` starts
with one. -/
def listCalls (w : World) : Nat :=
  (w.trace.filter isGetUsers).length

/-- What is observed of one run of `checkForNextSurvey`: its clock value, its result, and
whether the admin notice dispatch was invoked (an admin listing was requested). -/
structure SurveyRun where
  now : Int
  result : Except Fault Bool
  dispatched : Bool
  deriving DecidableEq, Repr

/-- Runs of `checkForNextSurvey`, one after the other on the same store, each with its
current version and clock value. -/
def surveyRuns (env : Env) (fuel : Nat) : World → List (Version × Int) → List SurveyRun
  | _, [] => []
  | w, (currentVersion, now) :: rest =>
    let r := checkForNextSurvey env fuel currentVersion now w
    { now := now, result := r.1, dispatched := decide (listCalls w < listCalls r.2) }
      :: surveyRuns env fuel r.2 rest

/-! ## Specification vocabulary -/

/-- The list `t` is a white-space-delimited token of `s`: a non-empty run without white
space, which the start of `s` or a white space precedes, and which a white space or the end
of `s` follows. -/
def IsToken (t s : List Char) : Prop :=
  t ≠ [] ∧ (∀ c ∈ t, isSpace c = false) ∧
    ∃ pre post, s = pre ++ t ++ post ∧
      (pre = [] ∨ ∃ p c, pre = p ++ [c] ∧ isSpace c = true) ∧
      (post = [] ∨ ∃ c q, post = c :: q ∧ isSpace c = true)

/-- The string `s` is a decimal representation of the integer `n`: an optional minus sign
followed by one or more decimal digits whose positional value is the magnitude of `n`. -/
def IsDecimal (s : List Char) (n : Int) : Prop :=
  ∃ (negative : Bool) (digits : List Char),
    s = (if negative then ['-'] else []) ++ digits ∧ digits ≠ [] ∧
      (∀ c ∈ digits, c.isDigit = true) ∧
      n = (if negative then -1 else 1) *
        ((Nat.ofDigits 10 (digits.reverse.map (fun c => c.toNat - 48)) : Nat) : Int)

/-! ## Score parsing -/

/-- Modelled from the spec: the decoding of a run of decimal digits, most significant
first, onto the value `acc` read so far; it fails on any other character. -/
def parseDigits : List Char → Nat → Option Nat
  | [], acc => some acc
  | c :: cs, acc => if c.isDigit then parseDigits cs (acc * 10 + (c.toNat - 48)) else none

/-- Modelled from the spec: the decoding of the selected option into an integer, an
optional minus sign followed by at least one digit. -/
def parseInteger (s : String) : Option Int :=
  match s.data with
  | [] => none
  | c :: cs =>
    if c = '-' then
      if cs = [] then none else (parseDigits cs 0).map (fun (n : Nat) => -(n : Int))
    else (parseDigits (c :: cs) 0).map (fun (n : Nat) => (n : Int))

/-- Modelled from the spec: `getScore` is not in the sources at hand (only its test
`TestGetScore` is). The selected option must decode to an integer in `[0, 10]`; any other
value is an error, returned with the score 0. A nil error is `none`. -/
def getScore (selectedOption : String) : Int × Option String :=
  match parseInteger selectedOption with
  | none => (0, some "score is not a number")
  | some score =>
    if score < 0 ∨ score > 10 then (0, some "score out of range") else (score, none)

/-! ## Activation (`activate.go`) -/

/-- The field of `model.Bot` the code reads. -/
structure Bot where
  UserId : String
  deriving DecidableEq, Repr

/-- The fields of `Plugin` that `OnActivate` assigns. -/
structure Plugin where
  botUserID : String
  serverVersion : Version
  activated : Bool
  deriving DecidableEq, Repr

/-- One call made during activation, with its arguments, or one log line. The last
constructor is the statement `go p.checkForNextSurvey(now)`. -/
inductive ActivateEvent where
  | log (level : LogLevel) (msg : String)
  | getConfig
  | createBot (username displayName description : String)
  | getUserByUsername (username : String)
  | getBot (userId : String) (includeDeleted : Bool)
  | getBundlePath
  | readFile (path : String)
  | setProfileImage (userId : String) (image : Bytes)
  | getServerVersion
  | initializeClient
  | clearStaleLocks (now : Int)
  | checkForServerUpgrade (now : Int)
  | goCheckForNextSurvey (now : Int)
  deriving DecidableEq, Repr

/-- What `activate.go` does not fix: the result of every collaborator call (each is made
at most once in an activation; a nil pointer or nil error is `none`), the constant
`SURVEYBOT_DESCRIPTION`, and the results of the plugin methods declared in other files. -/
structure ActivateEnv where
  SURVEYBOT_DESCRIPTION : String
  /-- The pointer `GetConfig().LogSettings.EnableDiagnostics`. -/
  EnableDiagnostics : Option Bool
  /-- The pair `(bot, createErr)` that `CreateBot` returns. -/
  CreateBotResult : Option Bot × Option AppError
  /-- The pair `(user, err)` that `GetUserByUsername("surveybot")` returns. -/
  GetUserByUsernameResult : Option User × Option AppError
  /-- The pair `(bot, err)` that `GetBot(userId, true)` returns. -/
  GetBotResult : String → Option Bot × Option AppError
  GetBundlePathResult : String × Option String
  /-- The function `filepath.Join`. -/
  filepathJoin : List String → String
  readFileResult : String → Bytes × Option String
  SetProfileImageError : String → Bytes → Option AppError
  /-- The value of `getServerVersion(p.API.GetServerVersion())`. -/
  getServerVersionResult : Version
  initializeClientError : Option String
  clearStaleLocksError : Int → Option String
  checkForServerUpgradeResult : Int → Bool × Option AppError

/-- `canSendDiagnostics` of `activate.go`. -/
def canSendDiagnostics (env : ActivateEnv) (tr : List ActivateEvent) :
    Bool × List ActivateEvent :=
  let enableDiagnostics := env.EnableDiagnostics
  (match enableDiagnostics with
    | none => false
    | some enabled => enabled,
    .getConfig :: tr)

/-- `setBotProfileImage` of `activate.go`. -/
def setBotProfileImage (env : ActivateEnv) (botUserID : String) (tr : List ActivateEvent) :
    Option AppError × List ActivateEvent :=
  let (bundlePath, err) := env.GetBundlePathResult
  let tr1 := ActivateEvent.getBundlePath :: tr
  match err with
  | some msg => (some { Message := msg }, tr1)
  | none =>
    let path := env.filepathJoin [bundlePath, "assets", "icon-happy-bot-square@1x.png"]
    let (profileImage, err) := env.readFileResult path
    let tr2 := ActivateEvent.readFile path :: tr1
    match err with
    | some msg => (some { Message := msg }, tr2)
    | none =>
      (env.SetProfileImageError botUserID profileImage,
        ActivateEvent.setProfileImage botUserID profileImage :: tr2)

/-- `ensureBotExists` of `activate.go`: the returned pair is the bot id and the error
(nil is `none`); `bot.UserId` on a nil `bot` is a panic. The test `err != nil || user == nil`
is the `match` on `user` followed by the test of `err`; both branches return `"", err`. -/
def ensureBotExists (env : ActivateEnv) (tr : List ActivateEvent) :
    Except Fault (String × Option AppError) × List ActivateEvent :=
  let tr0 := ActivateEvent.log .info "Ensuring Surveybot exists" :: tr
  let (bot, createErr) := env.CreateBotResult
  let tr1 := ActivateEvent.createBot "surveybot" "Surveybot" env.SURVEYBOT_DESCRIPTION :: tr0
  if createErr ≠ none then
    let tr2 :=
      ActivateEvent.log .debug "Failed to create Surveybot. Attempting to find existing one."
        :: tr1
    let (user, err) := env.GetUserByUsernameResult
    let tr3 := ActivateEvent.getUserByUsername "surveybot" :: tr2
    match user with
    | none => (.ok ("", err), .log .error "Failed to find Surveybot user" :: tr3)
    | some user =>
      if err ≠ none then (.ok ("", err), .log .error "Failed to find Surveybot user" :: tr3)
      else
        let (bot, err) := env.GetBotResult user.Id
        let tr4 := ActivateEvent.getBot user.Id true :: tr3
        if err ≠ none then (.ok ("", err), .log .error "Failed to find Surveybot" :: tr4)
        else
          let tr5 := ActivateEvent.log .debug "Found Surveybot" :: tr4
          match bot with
          | none => (.error (.panic "invalid memory address or nil pointer dereference"), tr5)
          | some bot => (.ok (bot.UserId, none), tr5)
  else
    match bot with
    | none => (.error (.panic "invalid memory address or nil pointer dereference"), tr1)
    | some bot =>
      let (err, tr2) := setBotProfileImage env bot.UserId tr1
      let tr3 :=
        if err ≠ none then ActivateEvent.log .warn "Failed to set profile image for bot" :: tr2
        else tr2
      (.ok (bot.UserId, none), .log .info "Surveybot created" :: tr3)

/-- The method `(*model.AppError).Error()`, which renders
`Where + ": " + Message + ", " + DetailedError`; the fields `Where` and `DetailedError`, which
the embedding does not keep, are empty. -/
def AppError.Error (e : AppError) : String :=
  ": " ++ e.Message ++ ", "

/-- `OnActivate` of `activate.go`: the returned error, as its text (nil is `none`; the text
of `errors.Wrap(appErr, msg)` is `msg`, a colon and the text of `appErr`), the plugin after the
call, and the calls made; `now` is the value of `p.now().UTC()`. The goroutine started by
`go p.checkForNextSurvey(now)` is recorded as an event and not run. -/
def OnActivate (env : ActivateEnv) (now : Int) (p : Plugin) (tr : List ActivateEvent) :
    Except Fault (Option String) × Plugin × List ActivateEvent :=
  let tr0 := ActivateEvent.log .debug "Activating NPS plugin" :: tr
  let (enabled, tr1) := canSendDiagnostics env tr0
  if !enabled then
    (.ok (some "Not activating NPS plugin because diagnostics are disabled"), p,
      .log .error "Not activating NPS plugin because diagnostics are disabled" :: tr1)
  else
    match ensureBotExists env tr1 with
    | (.error f, tr2) => (.error f, p, tr2)
    | (.ok (botUserID, appErr), tr2) =>
      match appErr with
      | some e => (.ok (some ("Failed to ensure bot user exists: " ++ e.Error)), p, tr2)
      | none =>
        let p1 := { p with botUserID := botUserID }
        let p2 := { p1 with serverVersion := env.getServerVersionResult }
        let tr3 := ActivateEvent.initializeClient :: .getServerVersion :: tr2
        match env.initializeClientError with
        | some msg =>
          (.ok (some msg), p2, .log .error "Failed to initialize Segment client" :: tr3)
        | none =>
          let tr4 := ActivateEvent.clearStaleLocks now :: tr3
          match env.clearStaleLocksError now with
          | some msg => (.ok (some msg), p2, tr4)
          | none =>
            let tr5 := ActivateEvent.log .debug "NPS plugin activated" :: tr4
            let p3 := { p2 with activated := true }
            let (upgraded, appErr) := env.checkForServerUpgradeResult now
            let tr6 := ActivateEvent.checkForServerUpgrade now :: tr5
            match appErr with
            | some e => (.ok (some e.Error), p3, tr6)
            | none =>
              if upgraded then
                (.ok none, p3,
                  .goCheckForNextSurvey now ::
                    .log .info "Upgrade detected. Checking if a survey should be scheduled."
                    :: tr6)
              else (.ok none, p3, tr6)

/-! ## Concrete worlds used to evaluate the code -/

namespace Demo

/-- 10 May 2019, 00:00 UTC, in nanoseconds since the Unix epoch. -/
def T0 : Int := 1557446400000000000

def Day : Int := 24 * Hour

def admin1 : User :=
  { Id := "a1", Email := "a1@example.com", Roles := "system_admin system_user", DeleteAt := 0 }

def admin2 : User :=
  { Id := "a2", Email := "a2@example.com", Roles := "system_user system_admin", DeleteAt := 0 }

/-- A total, injective stand-in for the JSON encoding of an `adminNotice`. -/
def marshalNotice (notice : adminNotice) : Bytes × Option String :=
  ([if notice.Sent then 1 else 0, if notice.NextSurvey < 0 then 1 else 0,
    notice.NextSurvey.natAbs], none)

def unmarshalNotice : Bytes → Except String adminNotice
  | [sent, negative, magnitude] =>
    .ok { Sent := sent == 1
          NextSurvey := if negative == 1 then -(magnitude : Int) else (magnitude : Int) }
  | _ => .error "unexpected end of JSON input"

/-- An environment in which every collaborator call succeeds and the only page of admins
holds `admin1` and `admin2`. -/
def calm : Env where
  ADMIN_DM_NOTICE_KEY := "AdminDM-"
  adminEmailSubject := fun siteName _ => "[" ++ siteName ++ "] NPS survey scheduled"
  adminEmailBodyTemplate := fun siteURL _ organization => .ok (siteURL ++ " " ++ organization)
  adminDMBody := fun _ => "A survey has been scheduled"
  marshalNotice := marshalNotice
  unmarshalNotice := unmarshalNotice
  GetConfigResult := fun _ =>
    { SiteName := some "Mattermost", SiteURL := some "https://example.com",
      FeedbackOrganization := none }
  GetUsersResult := fun _ page _ => if page = 0 then .ok [admin1, admin2] else .ok []
  SendMailError := fun _ _ => none
  KVSetError := fun _ _ => none
  KVGetError := fun _ _ => none
  CreateBotDMPostError := fun _ _ => none
  storeServerUpgradeError := fun _ => none

/-- As `calm`, except that every `KVSet` under the notice key of `admin1` fails. -/
def storeDown : Env :=
  { calm with
    KVSetError := fun _ key => if key = "AdminDM-a1" then some ⟨"store unavailable"⟩ else none }

/-- As `calm`, except that listing the second page of admins fails after a full first page. -/
def listingDown : Env :=
  { calm with
    GetUsersResult := fun _ page _ =>
      if page = 0 then .ok (List.replicate 100 admin1) else .error ⟨"listing failed"⟩ }

/-- A world with an empty store and no upgrade record. -/
def fresh : World := { kv := fun _ => none, lastServerUpgrade := none, trace := [] }

/-- A world whose last recorded upgrade is 5.10.0 at `T0`. -/
def upgraded : World :=
  { kv := fun _ => none, lastServerUpgrade := some ⟨⟨5, 10, 0⟩, T0⟩, trace := [] }

/-- Three minor upgrades, 10, 12 and 20 days after `T0`. -/
def upgrades : List (Version × Int) :=
  [(⟨5, 11, 0⟩, T0 + 10 * Day), (⟨5, 12, 0⟩, T0 + 12 * Day), (⟨5, 13, 0⟩, T0 + 20 * Day)]

/-- The same upgrade to 5.11.0 seen by two runs, ten days after `T0` and one nanosecond
later: the activation that follows a restart of the plugin. -/
def restarts : List (Version × Int) :=
  [(⟨5, 11, 0⟩, T0 + 10 * Day), (⟨5, 11, 0⟩, T0 + 10 * Day + 1)]

/-- A deactivated admin. -/
def former : User :=
  { Id := "a0", Email := "a0@example.com", Roles := "system_admin", DeleteAt := 1557000000000 }

/-- As `calm`, with three admins listed two per page: `admin1` and the deactivated `former`,
then `admin2`. -/
def paged : Env :=
  { calm with
    GetUsersResult := fun _ page _ =>
      if page = 0 then .ok [admin1, former] else if page = 1 then .ok [admin2] else .ok [] }

/-- An activation in which every call succeeds and the bot is created. -/
def botCreated : ActivateEnv where
  SURVEYBOT_DESCRIPTION := "Surveybot collects user feedback"
  EnableDiagnostics := some true
  CreateBotResult := (some ⟨"bot1"⟩, none)
  GetUserByUsernameResult := (none, some ⟨"not found"⟩)
  GetBotResult := fun _ => (none, some ⟨"not found"⟩)
  GetBundlePathResult := ("/plugins/nps", none)
  filepathJoin := fun parts => String.intercalate "/" parts
  readFileResult := fun _ => ([137, 80, 78, 71], none)
  SetProfileImageError := fun _ _ => none
  getServerVersionResult := ⟨5, 11, 0⟩
  initializeClientError := none
  clearStaleLocksError := fun _ => none
  checkForServerUpgradeResult := fun _ => (false, none)

/-- As `botCreated`, except that `CreateBot` fails and `GetUserByUsername` returns no user
and no error. -/
def botMissing : ActivateEnv :=
  { botCreated with
    CreateBotResult := (none, some ⟨"Unable to create the bot"⟩)
    GetUserByUsernameResult := (none, none) }

/-- A plugin before activation. -/
def inactive : Plugin := { botUserID := "", serverVersion := ⟨0, 0, 0⟩, activated := false }

end Demo

/-! # Theorems -/

/-! ## Upgrade detection -/

/-- What `shouldScheduleSurvey` computes: the minor fields are compared whatever the
major fields are. -/
theorem shouldScheduleSurvey_iff (currentVersion : Version) (lastUpgrade : Option serverUpgrade) :
    shouldScheduleSurvey currentVersion lastUpgrade = true ↔
      lastUpgrade = none ∨ ∃ last, lastUpgrade = some last ∧
        (currentVersion.Major > last.Version.Major ∨ currentVersion.Minor > last.Version.Minor) := by
  cases lastUpgrade with
  | none => simp [shouldScheduleSurvey]
  | some last => simp [shouldScheduleSurvey]

/-- Where the major version has not decreased, `shouldScheduleSurvey` is the comparison
of the (major, minor) pairs. -/
theorem shouldScheduleSurvey_of_major_le (currentVersion : Version) (last : serverUpgrade)
    (h : last.Version.Major ≤ currentVersion.Major) :
    shouldScheduleSurvey currentVersion (some last) = true ↔
      (currentVersion.Major > last.Version.Major ∨
        (currentVersion.Major = last.Version.Major ∧
          currentVersion.Minor > last.Version.Minor)) := by
  simp only [shouldScheduleSurvey, Bool.or_eq_true, decide_eq_true_eq]
  omega

/-- C1 (failing input): for the current version 5.11.0 against a last upgrade to 6.0.0, a
downgrade, `shouldScheduleSurvey` returns true, because 11 > 0 is tested without the major
fields being equal; patch-only upgrades and equal versions do give false. -/
theorem shouldScheduleSurvey_downgrade_schedules (t : Int) :
    shouldScheduleSurvey ⟨5, 11, 0⟩ (some ⟨⟨6, 0, 0⟩, t⟩) = true ∧
      shouldScheduleSurvey ⟨5, 10, 3⟩ (some ⟨⟨5, 10, 0⟩, t⟩) = false ∧
      shouldScheduleSurvey ⟨5, 10, 0⟩ (some ⟨⟨5, 10, 0⟩, t⟩) = false := by
  simp [shouldScheduleSurvey]

/-! ## The notice rate limit -/

theorem seven_days_lt_maxDuration : MIN_DAYS_BETWEEN_SURVEY_EMAILS * 24 * Hour < maxDuration := by
  decide

/-- Saturation of `Time.Sub` does not change a comparison with seven days. -/
theorem Time.Sub_ge_seven_days (t u : Int) :
    Time.Sub t u ≥ MIN_DAYS_BETWEEN_SURVEY_EMAILS * 24 * Hour ↔ t - u ≥ 7 * 24 * Hour := by
  have h7 : MIN_DAYS_BETWEEN_SURVEY_EMAILS * 24 * Hour = 604800000000000 := by decide
  have h7b : (7 : Int) * 24 * Hour = 604800000000000 := by decide
  have hmax : maxDuration = 9223372036854775807 := rfl
  have hmin : minDuration = -9223372036854775808 := rfl
  unfold Time.Sub
  rw [h7, h7b, hmax, hmin]
  split_ifs <;> omega

theorem shouldSendAdminNotices_some_iff (now : Int) (last : serverUpgrade) :
    shouldSendAdminNotices now (some last) = true ↔ now - last.Timestamp ≥ 7 * 24 * Hour := by
  have h := Time.Sub_ge_seven_days now last.Timestamp
  simp only [shouldSendAdminNotices, decide_eq_true_eq]
  exact h

/-- C2: `shouldSendAdminNotices now last` is true when `last` is absent; when `last` is
present with timestamp `t0` it is true exactly when `now - t0` is at least 7 days, so it is
true at exactly 7 days and false one nanosecond earlier. -/
theorem shouldSendAdminNotices_spec (now : Int) :
    shouldSendAdminNotices now none = true ∧
      (∀ last : serverUpgrade,
        shouldSendAdminNotices now (some last) = true ↔ now - last.Timestamp ≥ 7 * 24 * Hour) ∧
      (∀ (v : Version) (t0 : Int),
        shouldSendAdminNotices (t0 + 7 * 24 * Hour) (some ⟨v, t0⟩) = true) ∧
      (∀ (v : Version) (t0 : Int),
        shouldSendAdminNotices (t0 + 7 * 24 * Hour - 1) (some ⟨v, t0⟩) = false) := by
  have key := shouldSendAdminNotices_some_iff
  refine ⟨rfl, key now, ?_, ?_⟩
  · intro v t0
    rw [key]
    show (t0 : Int) + 7 * 24 * Hour - t0 ≥ 7 * 24 * Hour
    generalize (7 : Int) * 24 * Hour = d
    omega
  · intro v t0
    rw [← Bool.not_eq_true, key]
    show ¬ ((t0 : Int) + 7 * 24 * Hour - 1 - t0 ≥ 7 * 24 * Hour)
    generalize (7 : Int) * 24 * Hour = d
    omega

/-! ## The scheduler when no upgrade is detected -/

/-- C4: when `shouldScheduleSurvey` is false for the stored upgrade record,
`checkForNextSurvey` returns false, leaves the key-value store and the upgrade record as they
were, and its only call is the debug log: no admin listing, no email, no write. -/
theorem checkForNextSurvey_no_upgrade (env : Env) (fuel : Nat) (currentVersion : Version)
    (now : Int) (w : World)
    (h : shouldScheduleSurvey currentVersion w.lastServerUpgrade = false) :
    (checkForNextSurvey env fuel currentVersion now w).1 = .ok false ∧
      (checkForNextSurvey env fuel currentVersion now w).2.kv = w.kv ∧
      (checkForNextSurvey env fuel currentVersion now w).2.lastServerUpgrade
        = w.lastServerUpgrade ∧
      (checkForNextSurvey env fuel currentVersion now w).2.trace =
        Event.log .debug "No server version change detected. Not scheduling a new survey."
          :: w.trace := by
  simp [checkForNextSurvey, getLastServerUpgrade, h, LogDebug, World.emit]

/-- Witness of C4: last upgrade 5.10.0, current version 5.10.3. -/
theorem checkForNextSurvey_no_upgrade_witness :
    shouldScheduleSurvey ⟨5, 10, 3⟩ Demo.upgraded.lastServerUpgrade = false ∧
      (checkForNextSurvey Demo.calm 5 ⟨5, 10, 3⟩ (Demo.T0 + 10 * Demo.Day) Demo.upgraded).1
        = .ok false ∧
      (checkForNextSurvey Demo.calm 5 ⟨5, 10, 3⟩ (Demo.T0 + 10 * Demo.Day) Demo.upgraded).2.kv
        = Demo.upgraded.kv :=
  ⟨by decide,
    (checkForNextSurvey_no_upgrade Demo.calm 5 ⟨5, 10, 3⟩ (Demo.T0 + 10 * Demo.Day)
      Demo.upgraded (by decide)).1,
    (checkForNextSurvey_no_upgrade Demo.calm 5 ⟨5, 10, 3⟩ (Demo.T0 + 10 * Demo.Day)
      Demo.upgraded (by decide)).2.1⟩

/-! ## A failed notice write -/

/-- In general: when the notice is encoded and the store fails the write for the first
admin of the list, `sendAdminNoticeDMs` panics right after that call, whatever the rest of
the list is. -/
theorem sendAdminNoticeDMs_panics_of_failed_write (env : Env) (admin : User) (rest : List User)
    (nextSurvey : Int) (w : World) (e : AppError)
    (hm : (env.marshalNotice { Sent := false, NextSurvey := nextSurvey }).2 = none)
    (hk : env.KVSetError w.clock (env.ADMIN_DM_NOTICE_KEY ++ admin.Id) = some e) :
    sendAdminNoticeDMs env (admin :: rest) nextSurvey w =
      (.error (.panic "invalid memory address or nil pointer dereference"),
        w.emit (.kvSet (env.ADMIN_DM_NOTICE_KEY ++ admin.Id)
          (env.marshalNotice { Sent := false, NextSurvey := nextSurvey }).1 false)) := by
  simp [sendAdminNoticeDMs, hm, KVSet, hk, Error]

/-- When the notice is encoded and no write fails, `sendAdminNoticeDMs` returns after one
successful `KVSet` of the pending notice per admin, in the order of the list. -/
theorem sendAdminNoticeDMs_all_written (env : Env) (nextSurvey : Int)
    (hm : (env.marshalNotice { Sent := false, NextSurvey := nextSurvey }).2 = none)
    (hk : ∀ t key, env.KVSetError t key = none) :
    ∀ (admins : List User) (w : World),
      (sendAdminNoticeDMs env admins nextSurvey w).1 = .ok () ∧
        (sendAdminNoticeDMs env admins nextSurvey w).2.trace =
          (admins.reverse.map (fun admin =>
            Event.kvSet (env.ADMIN_DM_NOTICE_KEY ++ admin.Id)
              (env.marshalNotice { Sent := false, NextSurvey := nextSurvey }).1 true))
            ++ w.trace := by
  intro admins
  induction admins with
  | nil => intro w; simp [sendAdminNoticeDMs]
  | cons admin rest ih =>
    intro w
    simp only [sendAdminNoticeDMs, hm, ne_eq, not_true_eq_false, if_false, KVSet, hk]
    refine ⟨(ih _).1, ?_⟩
    rw [(ih _).2]
    simp

/-- C5 (failing input): with admins `admin1`, `admin2` and a store that fails the write of
`admin1`, `sendAdminNoticeDMs` panics in the failure branch (`err.Error()` on the nil
`err`); the only call made is the failed `KVSet` of `admin1`, so nothing is logged and the
write for `admin2` is never attempted. -/
theorem sendAdminNoticeDMs_failed_write_panics :
    (sendAdminNoticeDMs Demo.storeDown [Demo.admin1, Demo.admin2] Demo.T0 Demo.fresh).1
        = .error (.panic "invalid memory address or nil pointer dereference") ∧
      (sendAdminNoticeDMs Demo.storeDown [Demo.admin1, Demo.admin2] Demo.T0 Demo.fresh).2.trace
        = [Event.kvSet "AdminDM-a1" [0, 0, 1557446400000000000] false] ∧
      (sendAdminNoticeDMs Demo.storeDown [Demo.admin1, Demo.admin2] Demo.T0 Demo.fresh).2.kv
        "AdminDM-a2" = none := by
  decide

/-- A run that schedules and returns, returns true, and its last collaborator call apart
from the failure log is the attempt to store the record of the current version at `now`. -/
theorem checkForNextSurvey_scheduled_returns (env : Env) (fuel : Nat) (currentVersion : Version)
    (now : Int) (w : World) (b : Bool)
    (h : shouldScheduleSurvey currentVersion w.lastServerUpgrade = true)
    (hret : (checkForNextSurvey env fuel currentVersion now w).1 = .ok b) :
    b = true ∧ ∃ ok, Event.storeServerUpgrade ⟨currentVersion, now⟩ ok ∈
      (checkForNextSurvey env fuel currentVersion now w).2.trace.take 2 := by
  simp only [checkForNextSurvey, getLastServerUpgrade, h, Bool.not_true, Bool.false_eq_true,
    if_false] at hret ⊢
  split at hret
  · exact absurd hret (by simp)
  · rename_i heq
    simp only [heq, storeServerUpgrade] at hret ⊢
    generalize env.storeServerUpgradeError _ = stored at hret ⊢
    cases stored with
    | some e =>
      simp only [Except.ok.injEq] at hret
      exact ⟨hret.symm, false, by simp [LogError, World.emit]⟩
    | none =>
      simp only [Except.ok.injEq] at hret
      exact ⟨hret.symm, true, by simp⟩

/-- C3 (failing input): last upgrade 5.10.0 at `T0`, current version 5.11.0, ten days
later, and a store that fails the notice write of `admin1`: `checkForNextSurvey` panics
inside the dispatch, so it does not return true, makes no attempt to store the upgrade
record, and the stored record is still the one of 5.10.0. -/
theorem checkForNextSurvey_failed_notice_write_panics :
    (checkForNextSurvey Demo.storeDown 5 ⟨5, 11, 0⟩ (Demo.T0 + 10 * Demo.Day) Demo.upgraded).1
        = .error (.panic "invalid memory address or nil pointer dereference") ∧
      (∀ e ∈ (checkForNextSurvey Demo.storeDown 5 ⟨5, 11, 0⟩ (Demo.T0 + 10 * Demo.Day)
          Demo.upgraded).2.trace, ∀ u ok, e ≠ Event.storeServerUpgrade u ok) ∧
      (checkForNextSurvey Demo.storeDown 5 ⟨5, 11, 0⟩ (Demo.T0 + 10 * Demo.Day)
          Demo.upgraded).2.lastServerUpgrade = some ⟨⟨5, 10, 0⟩, Demo.T0⟩ := by
  refine ⟨by decide, ?_, by decide⟩
  have ht : (checkForNextSurvey Demo.storeDown 5 ⟨5, 11, 0⟩ (Demo.T0 + 10 * Demo.Day)
      Demo.upgraded).2.trace =
      [Event.kvSet "AdminDM-a1" [0, 0, 1560124800000000000] false,
        Event.sendMail "a2@example.com" "[Mattermost] NPS survey scheduled"
          "https://example.com " true,
        Event.log .debug "Sending NPS survey notification email",
        Event.sendMail "a1@example.com" "[Mattermost] NPS survey scheduled"
          "https://example.com " true,
        Event.log .debug "Sending NPS survey notification email",
        Event.getConfig,
        Event.getUsers 0 100 "system_admin",
        Event.log .info "Version change detected from %s to %s. Scheduling NPS survey for %s"] := by
    decide
  rw [ht]
  intro e he u ok
  simp only [List.mem_cons, List.mem_singleton, List.not_mem_nil, or_false] at he
  rcases he with h | h | h | h | h | h | h | h <;> (subst h; simp)

/-! ## A failed admin listing -/

/-- The listing requests for pages `page`, ..., `page + n - 1`, newest first. -/
theorem getAdminUsersLoop_listing_fails (env : Env) (perPage : Int) (err : AppError) :
    ∀ (k fuel page : Nat) (admins : List User) (w : World), k < fuel →
      (∀ i, i < k → ∃ us, env.GetUsersResult (w.clock + i) (page + i) perPage = .ok us ∧
        perPage ≤ (us.length : Int)) →
      env.GetUsersResult (w.clock + k) (page + k) perPage = .error err →
      getAdminUsersLoop env perPage fuel page admins w =
        (.ok (.error err),
          { kv := w.kv
            lastServerUpgrade := w.lastServerUpgrade
            trace := ((List.range' page (k + 1)).reverse.map
              (fun i => Event.getUsers i perPage "system_admin")) ++ w.trace }) := by
  intro k
  induction k with
  | zero =>
    intro fuel page admins w hfuel _ hfail
    obtain ⟨f, rfl⟩ : ∃ f, fuel = f + 1 := ⟨fuel - 1, by omega⟩
    simp only [Nat.add_zero] at hfail
    simp [getAdminUsersLoop, GetUsers, hfail, World.emit]
  | succ k ih =>
    intro fuel page admins w hfuel hfull hfail
    obtain ⟨f, rfl⟩ : ∃ f, fuel = f + 1 := ⟨fuel - 1, by omega⟩
    obtain ⟨us, hus, hlen⟩ := hfull 0 (by omega)
    simp only [Nat.add_zero] at hus
    have hnot : ¬ ((us.length : Int) < perPage) := by omega
    have hstep : getAdminUsersLoop env perPage (f + 1) page admins w =
        getAdminUsersLoop env perPage f (page + 1)
          (admins ++ us.filter (fun admin => !decide (admin.DeleteAt > 0)))
          (w.emit (.getUsers page perPage "system_admin")) := by
      simp [getAdminUsersLoop, GetUsers, hus, hnot]
    rw [hstep]
    have hclock : (w.emit (.getUsers page perPage "system_admin")).clock = w.clock + 1 := by
      simp [World.emit, World.clock]
    rw [ih f (page + 1) _ (w.emit (.getUsers page perPage "system_admin")) (by omega)
      (by
        intro i hi
        obtain ⟨us', h1, h2⟩ := hfull (i + 1) (by omega)
        refine ⟨us', ?_, h2⟩
        rw [hclock]
        rw [show w.clock + 1 + i = w.clock + (i + 1) by omega,
          show page + 1 + i = page + (i + 1) by omega]
        exact h1)
      (by
        rw [hclock]
        rw [show w.clock + 1 + k = w.clock + (k + 1) by omega,
          show page + 1 + k = page + (k + 1) by omega]
        exact hfail)]
    simp [World.emit, List.range'_succ]

/-- C8: if pages `0 .. k-1` of admins are listed in full and listing page `k` fails, then
`getAdminUsers` returns the error and no admins, and `sendAdminNotices` returns having only
requested those pages and logged the failure: no email is sent, no admin notice is written,
and the store is unchanged, whatever admins the earlier pages held. -/
theorem sendAdminNotices_listing_failure (env : Env) (fuel k : Nat) (nextSurvey : Int)
    (w : World) (err : AppError) (hfuel : k < fuel)
    (hfull : ∀ i, i < k → ∃ us,
      env.GetUsersResult (w.clock + i) i ADMIN_USERS_PER_PAGE = .ok us ∧
        ADMIN_USERS_PER_PAGE ≤ (us.length : Int))
    (hfail : env.GetUsersResult (w.clock + k) k ADMIN_USERS_PER_PAGE = .error err) :
    (getAdminUsers env fuel ADMIN_USERS_PER_PAGE w).1 = .ok (.error err) ∧
      (sendAdminNotices env fuel nextSurvey w).1 = .ok () ∧
      (sendAdminNotices env fuel nextSurvey w).2.kv = w.kv ∧
      (sendAdminNotices env fuel nextSurvey w).2.lastServerUpgrade = w.lastServerUpgrade ∧
      (sendAdminNotices env fuel nextSurvey w).2.trace =
        Event.log .error "Failed to get system admins to send admin notices" ::
          ((List.range (k + 1)).reverse.map
            (fun i => Event.getUsers i ADMIN_USERS_PER_PAGE "system_admin")) ++ w.trace := by
  have h := getAdminUsersLoop_listing_fails env ADMIN_USERS_PER_PAGE err k fuel 0 [] w hfuel
    (by simpa using hfull) (by simpa using hfail)
  have hg : getAdminUsers env fuel ADMIN_USERS_PER_PAGE w = _ := h
  refine ⟨by rw [hg], ?_⟩
  simp only [sendAdminNotices, hg, LogError, World.emit, List.range_eq_range']
  simp

/-- Witness of C8: the first page holds 100 admins and listing the second page fails. -/
theorem sendAdminNotices_listing_failure_witness :
    (getAdminUsers Demo.listingDown 5 ADMIN_USERS_PER_PAGE Demo.fresh).1
        = .ok (.error ⟨"listing failed"⟩) ∧
      (sendAdminNotices Demo.listingDown 5 Demo.T0 Demo.fresh).2.trace =
        [Event.log .error "Failed to get system admins to send admin notices",
          Event.getUsers 1 100 "system_admin", Event.getUsers 0 100 "system_admin"] := by
  have h := sendAdminNotices_listing_failure Demo.listingDown 5 1 Demo.T0 Demo.fresh
    ⟨"listing failed"⟩ (by decide)
    (by
      intro i hi
      obtain rfl : i = 0 := by omega
      exact ⟨List.replicate 100 Demo.admin1, rfl, by simp [ADMIN_USERS_PER_PAGE]⟩)
    rfl
  exact ⟨h.1, by simpa [ADMIN_USERS_PER_PAGE, Demo.fresh] using h.2.2.2.2⟩

/-! ## The admin role check -/

/-- A run without white space, read onto the field in progress, is one field. -/
theorem fieldsAux_of_no_space (t : List Char) (ht : ∀ c ∈ t, isSpace c = false) :
    ∀ cur : List Char,
      fieldsAux t cur = if cur.reverse ++ t = [] then [] else [cur.reverse ++ t] := by
  induction t with
  | nil => intro cur; simp [fieldsAux]
  | cons c cs ih =>
    intro cur
    have hc : isSpace c = false := ht c (List.mem_cons_self c cs)
    have hcs : ∀ d ∈ cs, isSpace d = false := fun d hd => ht d (List.mem_cons_of_mem c hd)
    rw [fieldsAux]
    simp only [hc, Bool.false_eq_true, if_false]
    rw [ih hcs (c :: cur)]
    simp

/-- A white space ends the field in progress and starts the scan afresh. -/
theorem fieldsAux_append_space (s2 : List Char) (sp : Char) (hsp : isSpace sp = true) :
    ∀ (s1 cur : List Char),
      fieldsAux (s1 ++ sp :: s2) cur = fieldsAux s1 cur ++ fieldsAux s2 [] := by
  intro s1
  induction s1 with
  | nil =>
    intro cur
    by_cases h : cur = [] <;> simp [fieldsAux, hsp, h]
  | cons c cs ih =>
    intro cur
    by_cases hc : isSpace c = true
    · by_cases h : cur = [] <;> simp [fieldsAux, hc, h, ih]
    · simp [fieldsAux, hc, ih]

theorem IsToken.after_space {t s : List Char} (h : IsToken t s) (p : List Char) (c : Char)
    (hc : isSpace c = true) : IsToken t (p ++ c :: s) := by
  obtain ⟨hne, hns, pre, post, hs, hpre, hpost⟩ := h
  refine ⟨hne, hns, p ++ c :: pre, post, by simp [hs], Or.inr ?_, hpost⟩
  rcases hpre with rfl | ⟨q, d, rfl, hd⟩
  · exact ⟨p, c, by simp, hc⟩
  · exact ⟨p ++ c :: q, d, by simp, hd⟩

/-- Every field that the scan returns is a token of the text read. -/
theorem isToken_of_mem_fieldsAux :
    ∀ (s cur : List Char), (∀ c ∈ cur, isSpace c = false) →
      ∀ t ∈ fieldsAux s cur, IsToken t (cur.reverse ++ s) := by
  intro s
  induction s with
  | nil =>
    intro cur hcur t ht
    by_cases h : cur = []
    · simp [fieldsAux, h] at ht
    · simp only [fieldsAux, h, if_false, List.mem_singleton] at ht
      subst ht
      refine ⟨by simpa using h, by simpa using hcur, [], [], by simp, Or.inl rfl, Or.inl rfl⟩
  | cons c cs ih =>
    intro cur hcur t ht
    by_cases hc : isSpace c = true
    · by_cases h : cur = []
      · subst h
        simp only [fieldsAux, hc, if_true] at ht
        have := ih [] (by simp) t ht
        simpa using this.after_space [] c hc
      · simp only [fieldsAux, hc, h, if_true, if_false, List.mem_cons] at ht
        rcases ht with rfl | ht
        · exact ⟨by simpa using h, by simpa using hcur, [], c :: cs, by simp, Or.inl rfl,
            Or.inr ⟨c, cs, rfl, hc⟩⟩
        · have := ih [] (by simp) t ht
          simpa using this.after_space cur.reverse c hc
    · have hc' : isSpace c = false := by simpa using hc
      simp only [fieldsAux, hc', Bool.false_eq_true, if_false] at ht
      have := ih (c :: cur) (by
        intro d hd
        rcases List.mem_cons.1 hd with rfl | hd
        · exact hc'
        · exact hcur d hd) t ht
      simpa using this

/-- Every token of a text is among the fields the scan returns. -/
theorem mem_fieldsAux_of_isToken {t s : List Char} (h : IsToken t s) : t ∈ fieldsAux s [] := by
  obtain ⟨hne, hns, pre, post, rfl, hpre, hpost⟩ := h
  have hmid : t ∈ fieldsAux (t ++ post) [] := by
    rcases hpost with rfl | ⟨c, q, rfl, hc⟩
    · rw [List.append_nil, fieldsAux_of_no_space t hns []]
      simp [hne]
    · rw [fieldsAux_append_space q c hc t [], fieldsAux_of_no_space t hns []]
      simp [hne]
  rcases hpre with rfl | ⟨p, c, rfl, hc⟩
  · simpa using hmid
  · have : p ++ [c] ++ t ++ post = p ++ c :: (t ++ post) := by simp
    rw [this, fieldsAux_append_space (t ++ post) c hc p []]
    exact List.mem_append_right _ hmid

theorem mem_fieldsAux_iff (t s : List Char) : t ∈ fieldsAux s [] ↔ IsToken t s :=
  ⟨fun h => by simpa using isToken_of_mem_fieldsAux s [] (by simp) t h,
    mem_fieldsAux_of_isToken⟩

theorem isSystemAdmin_iff_mem (user : User) :
    isSystemAdmin user = true ↔ "system_admin".data ∈ fieldsAux user.Roles.data [] := by
  simp only [isSystemAdmin, Fields, SYSTEM_ADMIN_ROLE_ID, List.any_eq_true, List.mem_map,
    beq_iff_eq]
  constructor
  · rintro ⟨role, ⟨l, hl, rfl⟩, hrole⟩
    have hdata : l = "system_admin".data := by rw [← hrole]
    rw [hdata] at hl
    exact hl
  · intro h
    exact ⟨"system_admin", ⟨"system_admin".data, h, rfl⟩, rfl⟩

/-- C9: `isSystemAdmin user` is true exactly when `system_admin` is one of the
white-space-delimited tokens of `user.Roles`; a longer token that contains it
(`system_admin_readonly`, `xsystem_admin`) gives false, and any amount of white space
around the token gives true. -/
theorem isSystemAdmin_iff_token (user : User) :
    (isSystemAdmin user = true ↔ IsToken "system_admin".data user.Roles.data) ∧
      (∀ id email deleteAt, isSystemAdmin ⟨id, email, "system_admin_readonly", deleteAt⟩ = false) ∧
      (∀ id email deleteAt, isSystemAdmin ⟨id, email, "xsystem_admin", deleteAt⟩ = false) ∧
      (∀ (id email : String) (deleteAt : Int) (before after : List Char),
        (∀ c ∈ before, isSpace c = true) → (∀ c ∈ after, isSpace c = true) →
          isSystemAdmin ⟨id, email, String.mk (before ++ "system_admin".data ++ after), deleteAt⟩
            = true) := by
  refine ⟨?_, ?_, ?_, ?_⟩
  · rw [isSystemAdmin_iff_mem, mem_fieldsAux_iff]
  · intro id email deleteAt
    show (Fields "system_admin_readonly").any (fun role => role == SYSTEM_ADMIN_ROLE_ID) = false
    decide
  · intro id email deleteAt
    show (Fields "xsystem_admin").any (fun role => role == SYSTEM_ADMIN_ROLE_ID) = false
    decide
  · intro id email deleteAt before after hb ha
    rw [isSystemAdmin_iff_mem, mem_fieldsAux_iff]
    refine ⟨by decide, by decide, before, after, rfl, ?_, ?_⟩
    · rcases List.eq_nil_or_concat before with h | ⟨p, c, h⟩
      · exact Or.inl h
      · refine Or.inr ⟨p, c, by simpa using h, hb c (by simp [h])⟩
    · cases after with
      | nil => exact Or.inl rfl
      | cons c q => exact Or.inr ⟨c, q, rfl, ha c (List.mem_cons_self c q)⟩

/-! ## Score parsing -/

theorem parseDigits_of_digits :
    ∀ (ds : List Char) (acc : Nat), (∀ c ∈ ds, c.isDigit = true) →
      parseDigits ds acc =
        some (acc * 10 ^ ds.length + Nat.ofDigits 10 (ds.reverse.map (fun c => c.toNat - 48))) := by
  intro ds
  induction ds with
  | nil => intro acc _; simp [parseDigits]
  | cons c cs ih =>
    intro acc h
    have hc : c.isDigit = true := h c (List.mem_cons_self c cs)
    rw [parseDigits, if_pos hc, ih _ (fun d hd => h d (List.mem_cons_of_mem c hd))]
    simp only [List.reverse_cons, List.map_append, List.map_cons, List.map_nil,
      Nat.ofDigits_append, Nat.ofDigits_singleton, List.length_map, List.length_reverse,
      List.length_cons, Option.some.injEq]
    ring

theorem digits_of_parseDigits :
    ∀ (ds : List Char) (acc n : Nat), parseDigits ds acc = some n → ∀ c ∈ ds, c.isDigit = true := by
  intro ds
  induction ds with
  | nil => intro acc n _ c hc; simp at hc
  | cons d cs ih =>
    intro acc n h c hc
    by_cases hd : d.isDigit = true
    · rw [parseDigits, if_pos hd] at h
      rcases List.mem_cons.1 hc with rfl | hc
      · exact hd
      · exact ih _ n h c hc
    · rw [parseDigits, if_neg hd] at h
      exact absurd h (by simp)

/-- The decoder accepts exactly the decimal representations, with their value. -/
theorem parseInteger_eq_some_iff (s : String) (n : Int) :
    parseInteger s = some n ↔ IsDecimal s.data n := by
  unfold parseInteger IsDecimal
  constructor
  · intro h
    cases hs : s.data with
    | nil => simp [hs] at h
    | cons c cs =>
      rw [hs] at h
      simp only at h
      by_cases hc : c = '-'
      · rw [if_pos hc] at h
        by_cases hcs : cs = []
        · simp [hcs] at h
        · rw [if_neg hcs] at h
          obtain ⟨m, hm, rfl⟩ := Option.map_eq_some'.1 h
          have hd := digits_of_parseDigits cs 0 m hm
          rw [parseDigits_of_digits cs 0 hd] at hm
          refine ⟨true, cs, by simp [hc], hcs, hd, ?_⟩
          simp only [Option.some.injEq] at hm
          rw [← hm]
          simp
      · rw [if_neg hc] at h
        obtain ⟨m, hm, rfl⟩ := Option.map_eq_some'.1 h
        have hd := digits_of_parseDigits (c :: cs) 0 m hm
        rw [parseDigits_of_digits (c :: cs) 0 hd] at hm
        refine ⟨false, c :: cs, by simp, by simp, hd, ?_⟩
        simp only [Option.some.injEq] at hm
        rw [← hm]
        simp
  · rintro ⟨negative, digits, hs, hne, hd, rfl⟩
    cases negative with
    | true =>
      simp only [if_true, List.singleton_append] at hs
      rw [hs]
      simp only [if_true, if_neg hne, parseDigits_of_digits digits 0 hd]
      simp
    | false =>
      simp only [Bool.false_eq_true, if_false, List.nil_append] at hs
      cases digits with
      | nil => exact absurd rfl hne
      | cons c cs =>
        have hc : c ≠ '-' := by
          intro hc
          have := hd c (List.mem_cons_self c cs)
          rw [hc] at this
          exact absurd this (by decide)
        rw [hs]
        simp only [if_neg hc, parseDigits_of_digits (c :: cs) 0 hd]
        simp

/-- C10: `getScore s` returns `n` with no error exactly when `s` is a decimal
representation of an integer `n` with `0 ≤ n ≤ 10`; for every other string it returns an
error and the score 0. The cases of `TestGetScore` come out as the test expects. -/
theorem getScore_spec (s : String) :
    (∀ n : Int, getScore s = (n, none) ↔ (0 ≤ n ∧ n ≤ 10 ∧ IsDecimal s.data n)) ∧
      ((¬ ∃ n : Int, 0 ≤ n ∧ n ≤ 10 ∧ IsDecimal s.data n) →
        (getScore s).1 = 0 ∧ (getScore s).2 ≠ none) ∧
      (getScore "7" = (7, none) ∧ getScore "0" = (0, none) ∧ getScore "10" = (10, none)) ∧
      ((getScore "-400").1 = 0 ∧ (getScore "-400").2 ≠ none) ∧
      ((getScore "1000000").1 = 0 ∧ (getScore "1000000").2 ≠ none) ∧
      ((getScore "garbage").1 = 0 ∧ (getScore "garbage").2 ≠ none) ∧
      ((getScore "").1 = 0 ∧ (getScore "").2 ≠ none) := by
  have key : ∀ n : Int, getScore s = (n, none) ↔ (0 ≤ n ∧ n ≤ 10 ∧ IsDecimal s.data n) := by
    intro n
    rw [← parseInteger_eq_some_iff]
    unfold getScore
    cases hp : parseInteger s with
    | none => simp
    | some score =>
      by_cases hr : score < 0 ∨ score > 10
      · simp only [if_pos hr, Prod.mk.injEq, Option.some.injEq]
        constructor
        · intro h
          exact absurd h.2 (by simp)
        · rintro ⟨h0, h10, rfl⟩
          omega
      · simp only [if_neg hr, Prod.mk.injEq, and_true, Option.some.injEq]
        constructor
        · rintro rfl
          omega
        · rintro ⟨_, _, h⟩
          exact h
  refine ⟨key, ?_, by decide, by decide, by decide, by decide, by decide⟩
  intro hno
  unfold getScore
  cases hp : parseInteger s with
  | none => simp
  | some score =>
    by_cases hr : score < 0 ∨ score > 10
    · simp [if_pos hr]
    · exfalso
      apply hno
      refine ⟨score, by omega, by omega, ?_⟩
      exact (parseInteger_eq_some_iff s score).1 hp

/-! ## Delivery of the admin notice -/

theorem dmPosts_emit (uid : String) (w : World) (e : Event) :
    dmPosts uid (w.emit e) = dmPosts uid w + (if isPostFor uid e then 1 else 0) := by
  unfold dmPosts World.emit
  by_cases h : isPostFor uid e = true <;> simp [List.filter_cons, h]

theorem checkForNextSurvey_of_not_scheduled (env : Env) (fuel : Nat) (currentVersion : Version)
    (now : Int) (w : World)
    (h : shouldScheduleSurvey currentVersion w.lastServerUpgrade = false) :
    checkForNextSurvey env fuel currentVersion now w =
      (.ok false, LogDebug "No server version change detected. Not scheduling a new survey." w) := by
  simp [checkForNextSurvey, getLastServerUpgrade, h]

/-- A run that schedules and returns ends with the new upgrade record stored, when the
write of the record succeeds. -/
theorem checkForNextSurvey_stores_record (env : Env) (fuel : Nat) (currentVersion : Version)
    (now : Int) (w : World) (b : Bool)
    (hstore : ∀ t, env.storeServerUpgradeError t = none)
    (h : shouldScheduleSurvey currentVersion w.lastServerUpgrade = true)
    (hret : (checkForNextSurvey env fuel currentVersion now w).1 = .ok b) :
    (checkForNextSurvey env fuel currentVersion now w).2.lastServerUpgrade =
      some { Version := currentVersion, Timestamp := now } := by
  simp only [checkForNextSurvey, getLastServerUpgrade, h, Bool.not_true, Bool.false_eq_true,
    if_false] at hret ⊢
  split at hret
  · exact absurd hret (by simp)
  · rename_i heq
    simp only [heq, storeServerUpgrade, hstore]

theorem listCalls_emit (w : World) (e : Event) :
    listCalls (w.emit e) = listCalls w + (if isGetUsers e then 1 else 0) := by
  unfold listCalls World.emit
  by_cases h : isGetUsers e = true <;> simp [List.filter_cons, h]

theorem listCalls_storeServerUpgrade (env : Env) (u : serverUpgrade) (w : World) :
    listCalls (storeServerUpgrade env u w).2 = listCalls w := by
  unfold storeServerUpgrade
  cases env.storeServerUpgradeError w.clock <;> simp [listCalls, World.emit, isGetUsers]

/-- A run requests an admin listing only if it schedules a survey and the notices are due. -/
theorem checkForNextSurvey_dispatch_due (env : Env) (fuel : Nat) (currentVersion : Version)
    (now : Int) (w : World)
    (h : listCalls w < listCalls (checkForNextSurvey env fuel currentVersion now w).2) :
    shouldScheduleSurvey currentVersion w.lastServerUpgrade = true ∧
      shouldSendAdminNotices now w.lastServerUpgrade = true := by
  by_cases hs : shouldScheduleSurvey currentVersion w.lastServerUpgrade = true
  · refine ⟨hs, ?_⟩
    by_contra hn
    have hn' : shouldSendAdminNotices now w.lastServerUpgrade = false := by simpa using hn
    have hw : listCalls (checkForNextSurvey env fuel currentVersion now w).2 = listCalls w := by
      simp only [checkForNextSurvey, getLastServerUpgrade, hs, hn', Bool.not_true,
        Bool.false_eq_true, if_false]
      split
      all_goals
        rename_i heq
        have hst := listCalls_storeServerUpgrade env
          { Version := currentVersion, Timestamp := now }
          (match w.lastServerUpgrade with
            | none => LogInfo "NPS plugin installed. Scheduling NPS survey for %s" w
            | some _ =>
              LogInfo "Version change detected from %s to %s. Scheduling NPS survey for %s" w)
        rw [heq] at hst
        simp only [LogError, listCalls_emit, isGetUsers] at hst ⊢
        rw [hst]
        cases w.lastServerUpgrade <;> simp [LogInfo, listCalls_emit, isGetUsers]
    omega
  · have hs' : shouldScheduleSurvey currentVersion w.lastServerUpgrade = false := by
      simpa using hs
    rw [checkForNextSurvey_of_not_scheduled env fuel currentVersion now w hs'] at h
    simp [LogDebug, listCalls, World.emit, isGetUsers] at h

/-- Once a record with timestamp at least `T` is stored, every later dispatch happens at
least seven days after `T`. -/
theorem surveyRuns_dispatch_after (env : Env) (fuel : Nat)
    (hstore : ∀ t, env.storeServerUpgradeError t = none) (T : Int) :
    ∀ (inputs : List (Version × Int)) (w : World),
      (∃ last, w.lastServerUpgrade = some last ∧ T ≤ last.Timestamp) →
      (∀ i ∈ inputs, T ≤ i.2) →
      (∀ r ∈ surveyRuns env fuel w inputs, ∃ b, r.result = .ok b) →
      ∀ r ∈ surveyRuns env fuel w inputs, r.dispatched = true → T + 7 * 24 * Hour ≤ r.now := by
  intro inputs
  induction inputs with
  | nil => intro w _ _ _ r hr; simp [surveyRuns] at hr
  | cons input rest ih =>
    obtain ⟨currentVersion, now⟩ := input
    intro w hlast hclock hret r hr
    obtain ⟨last, hl, hT⟩ := hlast
    simp only [surveyRuns, List.mem_cons] at hr hret
    rcases hr with rfl | hr
    · intro hd
      simp only [decide_eq_true_eq] at hd
      have hdue := (checkForNextSurvey_dispatch_due env fuel currentVersion now w hd).2
      rw [hl, shouldSendAdminNotices_some_iff] at hdue
      show T + 7 * 24 * Hour ≤ now
      generalize (7 : Int) * 24 * Hour = d at hdue ⊢
      omega
    · have hnow : T ≤ now := hclock (currentVersion, now) (List.mem_cons_self _ _)
      refine ih _ ?_ (fun i hi => hclock i (List.mem_cons_of_mem _ hi))
        (fun r' hr' => hret r' (Or.inr hr')) r hr
      by_cases hs : shouldScheduleSurvey currentVersion w.lastServerUpgrade = true
      · obtain ⟨b, hb⟩ := hret _ (Or.inl rfl)
        exact ⟨_, checkForNextSurvey_stores_record env fuel currentVersion now w b hstore hs hb,
          hnow⟩
      · have hs' : shouldScheduleSurvey currentVersion w.lastServerUpgrade = false := by
          simpa using hs
        rw [checkForNextSurvey_of_not_scheduled env fuel currentVersion now w hs']
        exact ⟨last, hl, hT⟩

/-- The rate limit on the runs that return: in every sequence of `checkForNextSurvey` runs
with non-decreasing clock values, in which every run returns and the writes of the upgrade
record succeed, any two runs that both invoke the admin notice dispatch have clock values at
least 7 days apart. -/
theorem admin_notices_seven_days_apart (env : Env) (fuel : Nat) (w : World)
    (inputs : List (Version × Int))
    (hclock : inputs.Pairwise (fun i j => i.2 ≤ j.2))
    (hstore : ∀ t, env.storeServerUpgradeError t = none)
    (hret : ∀ r ∈ surveyRuns env fuel w inputs, ∃ b, r.result = .ok b) :
    (surveyRuns env fuel w inputs).Pairwise
      (fun r1 r2 => r1.dispatched = true → r2.dispatched = true →
        r1.now + 7 * 24 * Hour ≤ r2.now) := by
  induction inputs generalizing w with
  | nil => simp [surveyRuns]
  | cons input rest ih =>
    obtain ⟨currentVersion, now⟩ := input
    rw [List.pairwise_cons] at hclock
    simp only [surveyRuns, List.mem_cons] at hret
    simp only [surveyRuns, List.pairwise_cons]
    refine ⟨?_, ih _ hclock.2 (fun r hr => hret r (Or.inr hr))⟩
    intro r2 hr2 hd1 hd2
    simp only [decide_eq_true_eq] at hd1
    have hs := (checkForNextSurvey_dispatch_due env fuel currentVersion now w hd1).1
    obtain ⟨b, hb⟩ := hret _ (Or.inl rfl)
    have hrec := checkForNextSurvey_stores_record env fuel currentVersion now w b hstore hs hb
    exact surveyRuns_dispatch_after env fuel hstore now rest _ ⟨_, hrec, le_refl _⟩
      (fun i hi => hclock.1 i hi) (fun r hr => hret r (Or.inr hr)) r2 hr2 hd2

/-- An instance of the rate limit on runs that return: upgrades 10, 12 and 20 days after the
last one; the first and the third run invoke the dispatch, ten days apart, and the second,
two days after the first, does not. -/
theorem admin_notices_seven_days_apart_witness :
    surveyRuns Demo.calm 5 Demo.upgraded Demo.upgrades =
        [⟨Demo.T0 + 10 * Demo.Day, .ok true, true⟩, ⟨Demo.T0 + 12 * Demo.Day, .ok true, false⟩,
          ⟨Demo.T0 + 20 * Demo.Day, .ok true, true⟩] ∧
      (surveyRuns Demo.calm 5 Demo.upgraded Demo.upgrades).Pairwise
        (fun r1 r2 => r1.dispatched = true → r2.dispatched = true →
          r1.now + 7 * 24 * Hour ≤ r2.now) :=
  have hruns : surveyRuns Demo.calm 5 Demo.upgraded Demo.upgrades =
      [⟨Demo.T0 + 10 * Demo.Day, .ok true, true⟩, ⟨Demo.T0 + 12 * Demo.Day, .ok true, false⟩,
        ⟨Demo.T0 + 20 * Demo.Day, .ok true, true⟩] := by decide
  ⟨hruns,
    admin_notices_seven_days_apart Demo.calm 5 Demo.upgraded Demo.upgrades (by decide)
      (fun _ => rfl) (by rw [hruns]; simp)⟩

/-! ## The dispatch is observable: it starts with an admin listing -/

theorem listCalls_sendAdminNoticeEmailsLoop (env : Env) (subject body : String) :
    ∀ (admins : List User) (w : World),
      listCalls (sendAdminNoticeEmailsLoop env subject body admins w) = listCalls w := by
  intro admins
  induction admins with
  | nil => intro w; rfl
  | cons admin rest ih =>
    intro w
    simp only [sendAdminNoticeEmailsLoop, SendMail]
    generalize env.SendMailError _ admin.Email = sent
    cases sent <;> simp [ih, LogError, LogDebug, listCalls_emit, isGetUsers]

theorem listCalls_sendAdminNoticeEmails (env : Env) (admins : List User) (w : World) :
    listCalls (sendAdminNoticeEmails env admins w).2 = listCalls w := by
  simp only [sendAdminNoticeEmails, GetConfig]
  generalize env.GetConfigResult w.clock = config
  cases config.SiteName with
  | none => simp [deref, listCalls_emit, isGetUsers]
  | some siteName =>
    cases config.SiteURL with
    | none => simp [deref, listCalls_emit, isGetUsers]
    | some siteURL =>
      simp only [deref]
      split <;>
        simp [LogError, listCalls_emit, isGetUsers, listCalls_sendAdminNoticeEmailsLoop]

theorem listCalls_KVSet (env : Env) (key : String) (value : Bytes) (w : World) :
    listCalls (KVSet env key value w).2 = listCalls w := by
  unfold KVSet
  cases env.KVSetError w.clock key <;> simp [listCalls, World.emit, isGetUsers]

theorem listCalls_sendAdminNoticeDMs (env : Env) (nextSurvey : Int) :
    ∀ (admins : List User) (w : World),
      listCalls (sendAdminNoticeDMs env admins nextSurvey w).2 = listCalls w := by
  intro admins
  induction admins with
  | nil => intro w; rfl
  | cons admin rest ih =>
    intro w
    simp only [sendAdminNoticeDMs]
    cases herr : (env.marshalNotice { Sent := false, NextSurvey := nextSurvey }).2 with
    | some msg => simp [herr, Error, ih, LogError, listCalls_emit, isGetUsers]
    | none =>
      simp only [herr, ne_eq, not_true_eq_false, if_false, Error]
      have hk := listCalls_KVSet env (env.ADMIN_DM_NOTICE_KEY ++ admin.Id)
        (env.marshalNotice { Sent := false, NextSurvey := nextSurvey }).1 w
      generalize KVSet env (env.ADMIN_DM_NOTICE_KEY ++ admin.Id) _ w = r at hk ⊢
      obtain ⟨_ | e, w1⟩ := r
      · simpa [ih] using hk
      · simpa using hk

theorem listCalls_getAdminUsersLoop (env : Env) (perPage : Int) :
    ∀ (fuel page : Nat) (admins : List User) (w : World), 0 < fuel →
      listCalls w < listCalls (getAdminUsersLoop env perPage fuel page admins w).2 := by
  intro fuel
  induction fuel with
  | zero => intro page admins w h; omega
  | succ f ih =>
    intro page admins w _
    simp only [getAdminUsersLoop, GetUsers]
    generalize env.GetUsersResult w.clock page perPage = listed
    cases listed with
    | error e => simp [listCalls_emit, isGetUsers]
    | ok adminsPage =>
      simp only
      split_ifs
      · simp [listCalls_emit, isGetUsers]
      · cases f with
        | zero => simp [getAdminUsersLoop, listCalls_emit, isGetUsers]
        | succ g =>
          have := ih (page + 1)
            (admins ++ adminsPage.filter (fun admin => !decide (admin.DeleteAt > 0)))
            (w.emit (.getUsers page perPage "system_admin")) (by omega)
          rw [listCalls_emit] at this
          omega

theorem listCalls_sendAdminNotices (env : Env) (fuel : Nat) (nextSurvey : Int) (w : World)
    (hfuel : 0 < fuel) : listCalls w < listCalls (sendAdminNotices env fuel nextSurvey w).2 := by
  have hg := listCalls_getAdminUsersLoop env ADMIN_USERS_PER_PAGE fuel 0 [] w hfuel
  simp only [sendAdminNotices, getAdminUsers]
  generalize getAdminUsersLoop env ADMIN_USERS_PER_PAGE fuel 0 [] w = r at hg
  obtain ⟨_ | _ | admins, w1⟩ := r
  · simpa using hg
  · simp only [LogError, listCalls_emit, isGetUsers]
    simpa using hg
  · simp only at hg ⊢
    have he := listCalls_sendAdminNoticeEmails env admins w1
    generalize sendAdminNoticeEmails env admins w1 = r2 at he
    obtain ⟨_ | _, w2⟩ := r2
    · simp only at he ⊢
      omega
    · simp only at he ⊢
      rw [listCalls_sendAdminNoticeDMs, he]
      exact hg

/-- With fuel for at least one listing, a run requests an admin listing exactly when it
schedules a survey and the notices are due: this is what `SurveyRun.dispatched` records. -/
theorem checkForNextSurvey_dispatch_iff (env : Env) (fuel : Nat) (currentVersion : Version)
    (now : Int) (w : World) (hfuel : 0 < fuel) :
    listCalls w < listCalls (checkForNextSurvey env fuel currentVersion now w).2 ↔
      (shouldScheduleSurvey currentVersion w.lastServerUpgrade = true ∧
        shouldSendAdminNotices now w.lastServerUpgrade = true) := by
  refine ⟨checkForNextSurvey_dispatch_due env fuel currentVersion now w, ?_⟩
  rintro ⟨hs, hn⟩
  simp only [checkForNextSurvey, getLastServerUpgrade, hs, hn, Bool.not_true,
    Bool.false_eq_true, if_false, if_true]
  have hd : ∀ w1, listCalls w1 = listCalls w →
      listCalls w < listCalls
        (sendAdminNotices env fuel (Time.Add now (DAYS_UNTIL_SURVEY * 24 * Hour)) w1).2 := by
    intro w1 h1
    rw [← h1]
    exact listCalls_sendAdminNotices env fuel _ w1 hfuel
  have hw1 : listCalls (match w.lastServerUpgrade with
      | none => LogInfo "NPS plugin installed. Scheduling NPS survey for %s" w
      | some _ =>
        LogInfo "Version change detected from %s to %s. Scheduling NPS survey for %s" w)
      = listCalls w := by
    cases w.lastServerUpgrade <;> simp [LogInfo, listCalls_emit, isGetUsers]
  have := hd _ hw1
  generalize sendAdminNotices env fuel (Time.Add now (DAYS_UNTIL_SURVEY * 24 * Hour)) _ = r
    at this
  obtain ⟨_ | _, w2⟩ := r
  · simpa using this
  · simp only at this ⊢
    have hst := listCalls_storeServerUpgrade env
      { Version := currentVersion, Timestamp := now } w2
    generalize storeServerUpgrade env _ w2 = r3 at hst
    obtain ⟨_ | _, w3⟩ := r3
    · simp only at hst ⊢
      omega
    · simp only [LogError, listCalls_emit, isGetUsers] at hst ⊢
      omega

/-! ## Listing the admins page by page -/

/-- The loop of `getAdminUsers`, entered at `page`, when the next `k` pages are full and the
one after them is short: it requests these `k + 1` pages and appends their active users. -/
theorem getAdminUsersLoop_lists (env : Env) (perPage : Int) :
    ∀ (k fuel page : Nat) (admins : List User) (w : World) (pages : Nat → List User),
      k < fuel →
      (∀ i, i ≤ k → env.GetUsersResult (w.clock + i) (page + i) perPage = .ok (pages i)) →
      (∀ i, i < k → perPage ≤ ((pages i).length : Int)) →
      ((pages k).length : Int) < perPage →
      getAdminUsersLoop env perPage fuel page admins w =
        (.ok (.ok (admins ++
            (((List.range (k + 1)).map pages).flatten).filter
              (fun admin => !decide (admin.DeleteAt > 0)))),
          { kv := w.kv
            lastServerUpgrade := w.lastServerUpgrade
            trace := ((List.range' page (k + 1)).reverse.map
              (fun i => Event.getUsers i perPage "system_admin")) ++ w.trace }) := by
  intro k
  induction k with
  | zero =>
    intro fuel page admins w pages hfuel hlisted _ hshort
    obtain ⟨f, rfl⟩ : ∃ f, fuel = f + 1 := ⟨fuel - 1, by omega⟩
    have h0 := hlisted 0 (le_refl 0)
    simp only [Nat.add_zero] at h0
    have hone : List.range 1 = [0] := rfl
    simp [getAdminUsersLoop, GetUsers, h0, hshort, World.emit, hone]
  | succ k ih =>
    intro fuel page admins w pages hfuel hlisted hfull hshort
    obtain ⟨f, rfl⟩ : ∃ f, fuel = f + 1 := ⟨fuel - 1, by omega⟩
    have h0 := hlisted 0 (by omega)
    simp only [Nat.add_zero] at h0
    have hnot : ¬ (((pages 0).length : Int) < perPage) := by
      have := hfull 0 (by omega)
      omega
    have hstep : getAdminUsersLoop env perPage (f + 1) page admins w =
        getAdminUsersLoop env perPage f (page + 1)
          (admins ++ (pages 0).filter (fun admin => !decide (admin.DeleteAt > 0)))
          (w.emit (.getUsers page perPage "system_admin")) := by
      simp [getAdminUsersLoop, GetUsers, h0, hnot]
    have hclock : (w.emit (.getUsers page perPage "system_admin")).clock = w.clock + 1 := by
      simp [World.emit, World.clock]
    rw [hstep, ih f (page + 1) _ (w.emit (.getUsers page perPage "system_admin"))
      (fun i => pages (i + 1)) (by omega)
      (by
        intro i hi
        rw [hclock, show w.clock + 1 + i = w.clock + (i + 1) by omega,
          show page + 1 + i = page + (i + 1) by omega]
        exact hlisted (i + 1) (by omega))
      (fun i hi => hfull (i + 1) (by omega)) hshort]
    have hrange : (List.range (k + 1 + 1)).map pages =
        pages 0 :: (List.range (k + 1)).map (fun i => pages (i + 1)) := by
      rw [List.range_succ_eq_map (k + 1)]
      simp [List.map_map, Function.comp_def]
    rw [hrange]
    simp [World.emit, List.range'_succ, List.append_assoc]

/-- C11: when pages `0 .. k` of admins are listed successfully, pages `0 .. k-1` are full
and page `k` is the first with fewer than `perPage` entries (so `perPage > 0`), `getAdminUsers`
returns, with enough fuel for `k + 1` requests, after requesting exactly the pages `0, ..., k`
once each in this order, and its result is the active users (`DeleteAt` not greater than 0)
of these pages in listing order: the concatenation of the pages, filtered. -/
theorem getAdminUsers_lists_all_pages (env : Env) (fuel k : Nat) (perPage : Int) (w : World)
    (pages : Nat → List User) (hfuel : k < fuel)
    (hlisted : ∀ i, i ≤ k → env.GetUsersResult (w.clock + i) i perPage = .ok (pages i))
    (hfull : ∀ i, i < k → perPage ≤ ((pages i).length : Int))
    (hshort : ((pages k).length : Int) < perPage) :
    0 < perPage ∧
      (getAdminUsers env fuel perPage w).1 =
        .ok (.ok ((((List.range (k + 1)).map pages).flatten).filter
          (fun admin => !decide (admin.DeleteAt > 0)))) ∧
      (getAdminUsers env fuel perPage w).2.trace =
        ((List.range (k + 1)).reverse.map
          (fun i => Event.getUsers i perPage "system_admin")) ++ w.trace ∧
      (getAdminUsers env fuel perPage w).2.kv = w.kv ∧
      (getAdminUsers env fuel perPage w).2.lastServerUpgrade = w.lastServerUpgrade := by
  have h := getAdminUsersLoop_lists env perPage k fuel 0 [] w pages hfuel
    (by simpa using hlisted) hfull hshort
  have hg : getAdminUsers env fuel perPage w = _ := h
  refine ⟨by omega, ?_⟩
  rw [hg]
  simp [List.range_eq_range']

/-- Witness of C11: two admins per page; the first page holds `admin1` and a deactivated
admin, the second page holds `admin2` alone. -/
theorem getAdminUsers_lists_all_pages_witness :
    (getAdminUsers Demo.paged 5 2 Demo.fresh).1 = .ok (.ok [Demo.admin1, Demo.admin2]) ∧
      (getAdminUsers Demo.paged 5 2 Demo.fresh).2.trace =
        [Event.getUsers 1 2 "system_admin", Event.getUsers 0 2 "system_admin"] := by
  have h := getAdminUsers_lists_all_pages Demo.paged 5 1 2 Demo.fresh
    (fun i => if i = 0 then [Demo.admin1, Demo.former] else [Demo.admin2]) (by decide)
    (by
      intro i hi
      interval_cases i <;> rfl)
    (by
      intro i hi
      obtain rfl : i = 0 := by omega
      decide)
    (by decide)
  refine ⟨h.2.1.trans (by decide), h.2.2.1.trans (by decide)⟩

/-! ## The bot account at activation -/

/-- When `CreateBot` fails and `GetUserByUsername` returns neither a user nor an error,
`ensureBotExists` returns the empty id with a nil error: its `return "", err` is reached
through `user == nil` with `err` nil. -/
theorem ensureBotExists_of_no_user_no_error (env : ActivateEnv) (tr : List ActivateEvent)
    (hcreate : env.CreateBotResult.2 ≠ none)
    (huser : env.GetUserByUsernameResult = (none, none)) :
    (ensureBotExists env tr).1 = .ok ("", none) := by
  simp [ensureBotExists, hcreate, huser]

/-- Every way for `ensureBotExists` to return a nil error: the id of the bot that
`CreateBot` returned, the id of the bot that `GetBot` returned for the user found, or the
empty id when `CreateBot` failed and no user and no error came back from
`GetUserByUsername`. -/
theorem ensureBotExists_nil_error_cases (env : ActivateEnv) (tr : List ActivateEvent)
    (id : String) (h : (ensureBotExists env tr).1 = .ok (id, none)) :
    (∃ bot, env.CreateBotResult = (some bot, none) ∧ id = bot.UserId) ∨
      (∃ user bot, env.CreateBotResult.2 ≠ none ∧
        env.GetUserByUsernameResult = (some user, none) ∧
        env.GetBotResult user.Id = (some bot, none) ∧ id = bot.UserId) ∨
      (env.CreateBotResult.2 ≠ none ∧ env.GetUserByUsernameResult = (none, none) ∧ id = "") := by
  rcases hc : env.CreateBotResult with ⟨bot, createErr⟩
  rcases hu : env.GetUserByUsernameResult with ⟨user, err⟩
  simp only [ensureBotExists, hc, hu] at h
  cases createErr with
  | none =>
    cases bot with
    | none => simp at h
    | some b =>
      left
      refine ⟨b, rfl, ?_⟩
      simp at h
      exact h.symm
  | some ce =>
    right
    cases user with
    | none =>
      right
      simp at h
      exact ⟨by simp, by rw [h.2], h.1.symm⟩
    | some u =>
      left
      cases err with
      | some e => simp at h
      | none =>
        rcases hg : env.GetBotResult u.Id with ⟨gbot, gerr⟩
        simp only [hg] at h
        cases gerr with
        | some e => simp at h
        | none =>
          cases gbot with
          | none => simp at h
          | some b =>
            simp at h
            exact ⟨u, b, by simp, rfl, hg, h.symm⟩

/-- C12 (failing input): `CreateBot` fails and `GetUserByUsername` returns no user and no
error. `ensureBotExists` returns the empty bot id with a nil error, and `OnActivate`
stores the empty `botUserID`, goes on, sets the plugin activated and returns nil. -/
theorem ensureBotExists_empty_id_nil_error :
    (ensureBotExists Demo.botMissing []).1 = .ok ("", none) ∧
      (OnActivate Demo.botMissing Demo.T0 Demo.inactive []).1 = .ok none ∧
      (OnActivate Demo.botMissing Demo.T0 Demo.inactive []).2.1 =
        { botUserID := "", serverVersion := ⟨5, 11, 0⟩, activated := true } := by
  decide

/-! ## The rate limit when a run does not return -/

/-- C6 (failing input): last upgrade 5.10.0 at `T0`, a store that fails the notice write of
`admin1`, and two runs for 5.11.0, ten days after `T0` and one nanosecond later. The clock
values do not decrease and no write of the upgrade record fails, yet both runs invoke the
dispatch and both mail `admin1`: the first run panics in `sendAdminNoticeDMs` after the
emails and before the record is stored, so the second run still measures from `T0`. -/
theorem admin_notices_resent_after_failed_notice_write :
    Demo.restarts.Pairwise (fun i j => i.2 ≤ j.2) ∧
      (∀ t, Demo.storeDown.storeServerUpgradeError t = none) ∧
      surveyRuns Demo.storeDown 5 Demo.upgraded Demo.restarts =
        [⟨Demo.T0 + 10 * Demo.Day,
            .error (.panic "invalid memory address or nil pointer dereference"), true⟩,
          ⟨Demo.T0 + 10 * Demo.Day + 1,
            .error (.panic "invalid memory address or nil pointer dereference"), true⟩] ∧
      ¬ (Demo.T0 + 10 * Demo.Day + 7 * 24 * Hour ≤ Demo.T0 + 10 * Demo.Day + 1) ∧
      (checkForNextSurvey Demo.storeDown 5 ⟨5, 11, 0⟩ (Demo.T0 + 10 * Demo.Day)
          Demo.upgraded).2.lastServerUpgrade = some ⟨⟨5, 10, 0⟩, Demo.T0⟩ ∧
      ((checkForNextSurvey Demo.storeDown 5 ⟨5, 11, 0⟩ (Demo.T0 + 10 * Demo.Day + 1)
          (checkForNextSurvey Demo.storeDown 5 ⟨5, 11, 0⟩ (Demo.T0 + 10 * Demo.Day)
            Demo.upgraded).2).2.trace.filter
        (fun e => decide (e = Event.sendMail "a1@example.com"
          "[Mattermost] NPS survey scheduled" "https://example.com " true))).length = 2 := by
  refine ⟨by decide, fun _ => rfl, by decide, by decide, by decide, by decide⟩

end NPS
